import Mathlib

/-!
Verification development for the web3-jsonrpc-gateway repository.

The gateway terminates Ethereum JSON-RPC traffic, intercepts account- and
transaction-scoped methods, signs with locally-managed wallets, and forwards
everything else to a backend provider.  The definitions below are a shallow
embedding of the request/response pipeline:

* `JVal` models the JavaScript runtime values flowing between `express.json()`,
  the handlers, and `res.json(...)` (objects are modelled as association lists
  in insertion order, which is the enumeration order of `Object.keys`; the
  JavaScript value `undefined` is the constructor `JVal.undefined`, and a member
  whose value is `undefined` is dropped by JSON serialization).
* `jsonStringify`/`jsonParse` model `JSON.stringify`/`JSON.parse` as used by
  the router's error-normalisation path.
* `WalletWrapper` operations (`composeTransaction`, `getGasPrice`,
  `getGasLimit`, `checkRollbacks`, `processEthCall`, `processEthSignMessage`,
  `processTransaction`, `getBlockByNumber`) are embedded from
  `src/lib/ethers/wrapper.ts`; backend answers (gas price, gas estimation,
  block number, nonce) are passed in as oracle arguments since every outbound
  call is a suspension point whose answer the gateway does not control.
* `routerRespond` embeds the catch-all POST handler of `src/ethers/server.ts`
  (envelope construction and error normalisation).
* `translateCfxResponseObject`, `translateTag` and `dictionaryEthCfx` are
  embedded from the Conflux `WalletMiddlewareServer`.  The in-place recursive
  mutation of the response object is rendered as a fuelled pure function that
  threads the object state key by key, exactly in `Object.keys` order; the
  external CIP-37 codec `confluxFormat.hexAddress` is a function parameter.
-/

set_option maxRecDepth 100000

namespace W3GW

/-- JavaScript runtime values reaching the gateway through `express.json()`
and produced by handlers.  Numbers are modelled as integers (every numeric
value handled by the embedded code paths is integral). -/
inductive JVal where
  | null
  | undefined
  | bool (b : Bool)
  | num (n : Int)
  | str (s : String)
  | arr (elems : List JVal)
  | obj (fields : List (String × JVal))

mutual

/-- Boolean structural equality of JavaScript values. -/
def jvalBEq : JVal → JVal → Bool
  | .null, .null => true
  | .undefined, .undefined => true
  | .bool a, .bool b => a == b
  | .num a, .num b => a == b
  | .str a, .str b => a == b
  | .arr a, .arr b => jlistBEq a b
  | .obj a, .obj b => jfieldsBEq a b
  | _, _ => false

/-- Boolean equality of value lists. -/
def jlistBEq : List JVal → List JVal → Bool
  | [], [] => true
  | a :: as, b :: bs => jvalBEq a b && jlistBEq as bs
  | _, _ => false

/-- Boolean equality of object field lists. -/
def jfieldsBEq : List (String × JVal) → List (String × JVal) → Bool
  | [], [] => true
  | (k, a) :: as, (k', b) :: bs => k == k' && jvalBEq a b && jfieldsBEq as bs
  | _, _ => false

end

/-- ASCII lower-casing of one character (`String.prototype.toLowerCase` on
the ASCII identifiers, addresses and tags the gateway handles). -/
def jsToLowerChar (c : Char) : Char :=
  if 'A' ≤ c && c ≤ 'Z' then Char.ofNat (c.toNat + 32) else c

/-- `String.prototype.toLowerCase`. -/
def jsToLower (s : String) : String :=
  ⟨s.data.map jsToLowerChar⟩

/-- Whether the first list is a prefix of the second. -/
def charListPrefix : List Char → List Char → Bool
  | [], _ => true
  | _ :: _, [] => false
  | p :: ps, c :: cs => p == c && charListPrefix ps cs

/-- `String.prototype.startsWith`. -/
def jsStartsWith (s p : String) : Bool :=
  charListPrefix p.data s.data

/-- JavaScript truthiness of a value (`if (v)`). -/
def jsTruthy : JVal → Bool
  | .null => false
  | .undefined => false
  | .bool b => b
  | .num n => n != 0
  | .str s => s != ""
  | .arr _ => true
  | .obj _ => true

/-- Property read on an association-list object; reading a missing key, or a
property of a non-object, yields `undefined` (the embedded code never reads a
property of `null`/`undefined`, which would throw in JavaScript). -/
def lookupField : List (String × JVal) → String → JVal
  | [], _ => .undefined
  | (k', v) :: rest, k => if k' == k then v else lookupField rest k

/-- Property read `v[k]`. -/
def getField (v : JVal) (k : String) : JVal :=
  match v with
  | .obj fields => lookupField fields k
  | _ => .undefined

/-- Property write `obj[k] = v`: an existing key keeps its position, a new key
is appended, matching JavaScript object insertion-order semantics. -/
def setKey : List (String × JVal) → String → JVal → List (String × JVal)
  | [], k, v => [(k, v)]
  | (k', v') :: rest, k, v =>
      if k' == k then (k, v) :: rest else (k', v') :: setKey rest k v

/-- Property write on an object value, identity elsewhere. -/
def setField (o : JVal) (k : String) (v : JVal) : JVal :=
  match o with
  | .obj fields => .obj (setKey fields k v)
  | _ => o

mutual

/-- JavaScript string conversion (template literals, `String(v)`,
`v.toString()` for plain values). -/
def jsToString : JVal → String
  | .null => "null"
  | .undefined => "undefined"
  | .bool b => cond b "true" "false"
  | .num n => toString n
  | .str s => s
  | .arr es => String.intercalate "," (jsToStringElems es)
  | .obj _ => "[object Object]"

/-- Array elements under `Array.prototype.toString` (null/undefined become
empty slots in the join). -/
def jsToStringElems : List JVal → List String
  | [] => []
  | .null :: rest => "" :: jsToStringElems rest
  | .undefined :: rest => "" :: jsToStringElems rest
  | v :: rest => jsToString v :: jsToStringElems rest

end

/-- Escape one character for a JSON string literal, as `JSON.stringify` does
(the embedded strings contain no control characters besides the ones named). -/
def jsonEscapeChar (c : Char) : String :=
  if c == '"' then "\\\""
  else if c == '\\' then "\\\\"
  else if c == '\n' then "\\n"
  else if c == '\r' then "\\r"
  else if c == '\t' then "\\t"
  else String.singleton c

/-- A JSON string literal with its surrounding quotes. -/
def jsonQuote (s : String) : String :=
  "\"" ++ String.join (s.data.map jsonEscapeChar) ++ "\""

mutual

/-- `JSON.stringify`.  It returns no string at all on `undefined`
(JavaScript returns the value `undefined`, not a string). -/
def jsonStringify : JVal → Option String
  | .null => some "null"
  | .undefined => none
  | .bool b => some (cond b "true" "false")
  | .num n => some (toString n)
  | .str s => some (jsonQuote s)
  | .arr es => some ("[" ++ String.intercalate "," (jsonStringifyElems es) ++ "]")
  | .obj fields =>
      some ("\x7b" ++ String.intercalate "," (jsonStringifyFields fields) ++ "\x7d")

/-- Array elements: an `undefined` element serializes as `null`. -/
def jsonStringifyElems : List JVal → List String
  | [] => []
  | v :: rest =>
      (match jsonStringify v with
        | some s => s
        | none => "null") :: jsonStringifyElems rest

/-- Object members: a member whose value is `undefined` is dropped. -/
def jsonStringifyFields : List (String × JVal) → List String
  | [] => []
  | (k, v) :: rest =>
      (match jsonStringify v with
        | some s => [jsonQuote k ++ ":" ++ s]
        | none => []) ++ jsonStringifyFields rest

end

/-- `JSON.stringify` coerced to a string (the embedded code only stringifies
values that are not `undefined`). -/
def jsonStringifyD (v : JVal) : String :=
  (jsonStringify v).getD "undefined"

/-- Skip JSON whitespace. -/
def jsonSkipWs : List Char → List Char
  | c :: rest =>
      if c == ' ' || c == '\n' || c == '\t' || c == '\r' then jsonSkipWs rest
      else c :: rest
  | [] => []

/-- Parse the body of a JSON string literal after the opening quote, returning
the decoded string and the input after the closing quote. -/
def jsonParseString : Nat → List Char → Option (String × List Char)
  | 0, _ => none
  | _ + 1, [] => none
  | fuel + 1, c :: rest =>
      if c == '"' then some ("", rest)
      else if c == '\\' then
        match rest with
        | [] => none
        | e :: rest' =>
            let dec : Option Char :=
              if e == '"' then some '"'
              else if e == '\\' then some '\\'
              else if e == '/' then some '/'
              else if e == 'n' then some '\n'
              else if e == 'r' then some '\r'
              else if e == 't' then some '\t'
              else if e == 'b' then some (Char.ofNat 8)
              else if e == 'f' then some (Char.ofNat 12)
              else none
            match dec with
            | none => none
            | some d =>
                match jsonParseString fuel rest' with
                | some (s, rem) => some (String.singleton d ++ s, rem)
                | none => none
      else
        match jsonParseString fuel rest with
        | some (s, rem) => some (String.singleton c ++ s, rem)
        | none => none

/-- Parse a run of decimal digits into a natural number. -/
def jsonParseDigits : List Char → Option (Nat × List Char)
  | cs =>
      let ds := cs.takeWhile Char.isDigit
      if ds.isEmpty then none
      else some (ds.foldl (fun acc c => acc * 10 + (c.toNat - 48)) 0, cs.dropWhile Char.isDigit)

/-- Skip an exponent's sign and digits. -/
def jsonSkipExp (cs : List Char) : List Char :=
  match cs with
  | '+' :: rest => rest.dropWhile Char.isDigit
  | '-' :: rest => rest.dropWhile Char.isDigit
  | _ => cs.dropWhile Char.isDigit

/-- Skip a fractional part / exponent after the integer part of a number
(accepted by `JSON.parse`, truncated by this model; see `jsonParseVal`). -/
def jsonSkipNumTail (cs : List Char) : List Char :=
  let cs :=
    match cs with
    | '.' :: rest => rest.dropWhile Char.isDigit
    | _ => cs
  match cs with
  | 'e' :: rest => jsonSkipExp rest
  | 'E' :: rest => jsonSkipExp rest
  | _ => cs

mutual

/-- Recursive-descent model of `JSON.parse` over the remaining characters.
A fractional part or exponent is accepted but truncated to the integer part:
the router only inspects parsed values for null-ness and their `error` member,
so non-integral numbers are observationally interchangeable with integers. -/
def jsonParseVal : Nat → List Char → Option (JVal × List Char)
  | 0, _ => none
  | fuel + 1, cs =>
      match jsonSkipWs cs with
      | 'n' :: 'u' :: 'l' :: 'l' :: rest => some (.null, rest)
      | 't' :: 'r' :: 'u' :: 'e' :: rest => some (.bool true, rest)
      | 'f' :: 'a' :: 'l' :: 's' :: 'e' :: rest => some (.bool false, rest)
      | '"' :: rest =>
          match jsonParseString (fuel + 1) rest with
          | some (s, rem) => some (.str s, rem)
          | none => none
      | '[' :: rest =>
          (match jsonSkipWs rest with
            | ']' :: rem => some (.arr [], rem)
            | rest' =>
                match jsonParseElems fuel rest' with
                | some (es, rem) => some (.arr es, rem)
                | none => none)
      | '\x7b' :: rest =>
          (match jsonSkipWs rest with
            | '\x7d' :: rem => some (.obj [], rem)
            | rest' =>
                match jsonParseMembers fuel rest' with
                | some (pairs, rem) =>
                    some (.obj (pairs.foldl (fun acc p => setKey acc p.1 p.2) []), rem)
                | none => none)
      | '-' :: rest =>
          (match jsonParseDigits rest with
            | some (n, rem) => some (.num (-(n : Int)), jsonSkipNumTail rem)
            | none => none)
      | c :: rest =>
          if c.isDigit then
            match jsonParseDigits (c :: rest) with
            | some (n, rem) => some (.num (n : Int), jsonSkipNumTail rem)
            | none => none
          else none
      | [] => none

/-- One or more comma-separated array elements, consuming the closing `]`. -/
def jsonParseElems : Nat → List Char → Option (List JVal × List Char)
  | 0, _ => none
  | fuel + 1, cs =>
      match jsonParseVal fuel cs with
      | none => none
      | some (v, rem) =>
          match jsonSkipWs rem with
          | ',' :: rest =>
              (match jsonParseElems fuel rest with
                | some (es, rem') => some (v :: es, rem')
                | none => none)
          | ']' :: rest => some ([v], rest)
          | _ => none

/-- One or more comma-separated object members in source order, consuming the
closing brace.  The caller replays them left to right through `setKey`, so a
duplicated key overwrites the earlier value in place, as `JSON.parse` does. -/
def jsonParseMembers : Nat → List Char → Option (List (String × JVal) × List Char)
  | 0, _ => none
  | fuel + 1, cs =>
      match jsonSkipWs cs with
      | '"' :: rest =>
          (match jsonParseString (fuel + 1) rest with
            | none => none
            | some (k, rem) =>
                match jsonSkipWs rem with
                | ':' :: rest' =>
                    (match jsonParseVal fuel rest' with
                      | none => none
                      | some (v, rem') =>
                          match jsonSkipWs rem' with
                          | ',' :: rest'' =>
                              (match jsonParseMembers fuel rest'' with
                                | some (pairs, rem'') => some ((k, v) :: pairs, rem'')
                                | none => none)
                          | '\x7d' :: rest'' => some ([(k, v)], rest'')
                          | _ => none)
                | _ => none)
      | _ => none

end

/-- `JSON.parse` on a whole string: the parsed value must consume the input up
to trailing whitespace. -/
def jsonParse (s : String) : Option JVal :=
  match jsonParseVal (s.length + 1) s.data with
  | some (v, rem) => if (jsonSkipWs rem).isEmpty then some v else none
  | none => none

/-! ## WalletWrapper (src/lib/ethers/wrapper.ts) -/

/-- Truthiness of an optional string-valued transaction field
(an absent field reads as `undefined`, an empty string is falsy). -/
def optStrTruthy : Option String → Bool
  | none => false
  | some s => s != ""

/-- Truthiness of an optional client-supplied JSON value. -/
def jsOptTruthy : Option JVal → Bool
  | none => false
  | some v => jsTruthy v

/-- Tuning knobs of the generic ethers `WalletWrapper` (constructor
arguments of `src/lib/ethers/wrapper.ts`).  Quantities are natural numbers
(the hex/decimal strings and `BigNumber`s of the source, which are
non-negative in every embedded path); the gas factors are exact rationals
standing for the JavaScript numbers, which the code immediately coerces
through `Math.ceil(factor * 100)`. -/
structure EthersConfig where
  defaultGasPrice : Nat
  defaultGasLimit : Nat
  estimateGasLimit : Bool
  estimateGasPrice : Bool
  ethGasPriceFactor : Bool
  forceEIP155 : Bool
  forceType2Txs : Bool
  gasPriceFactor : ℚ
  gasLimitFactor : ℚ
  interleaveBlocks : Int
  chainId : Nat
deriving Repr, DecidableEq

/-- Inbound `eth_sendTransaction`/`eth_call` params (interface
`TransactionParams`).  Quantity-bearing fields (`gas`, `gasPrice`, `value`,
fee caps) are hex-string quantities in the source and are modelled by their
numeric value, absent fields by `none`; JavaScript truthiness of a supplied
quantity string coincides with presence (clients send non-empty hex strings).
The `nonce` field keeps the raw client JSON value, whose truthiness the code
inspects. -/
structure TransactionParams where
  fromAddr : Option String
  toAddr : Option String
  gas : Option Nat
  gasPrice : Option Nat
  value : Option Nat
  data : Option String
  nonce : Option JVal
  maxFeePerGas : Option Nat
  maxPriorityFeePerGas : Option Nat

/-- The composed `ethers.providers.TransactionRequest`. -/
structure TransactionRequest where
  fromAddr : Option String
  toAddr : Option String
  value : Option Nat
  data : Option String
  nonce : Option JVal
  chainId : Option Nat
  type : Option Nat
  gasPrice : Option Nat
  gasLimit : Option Nat
  maxFeePerGas : Option Nat
  maxPriorityFeePerGas : Option Nat

/-- The structured value thrown by the wrapper:
`throw { reason, body: { error: { code, message } } }`. -/
structure RpcErrorBody where
  reason : String
  code : Int
  message : String
deriving Repr, DecidableEq

/-- The thrown object as the JavaScript value seen by the router's `catch`. -/
def thrownToJVal (e : RpcErrorBody) : JVal :=
  .obj [("reason", .str e.reason),
        ("body", .obj [("error", .obj [("code", .num e.code),
                                       ("message", .str e.message)])])]

/-- `Math.ceil(factor * 100)`, clamped at zero (the configured factors are
non-negative). -/
def ceil100 (q : ℚ) : Nat :=
  (Int.ceil (q * 100)).toNat

/-- The `-32099` body thrown when the backend gas-price query fails. -/
def unpredictableGasPriceError (ex : String) : RpcErrorBody :=
  let reason := s!"Unpredictable gas price: {ex}"
  { reason := reason, code := -32099, message := reason }

/-- The `-32099` body thrown when an estimated gas price exceeds the
threshold. -/
def estimatedGasPriceError (g d : Nat) : RpcErrorBody :=
  let reason := s!"Estimated gas price exceeds threshold ({g} > {d})"
  { reason := reason, code := -32099, message := reason }

/-- The `-32099` body thrown when a supplied gas price exceeds the
threshold. -/
def providedGasPriceError (g d : Nat) : RpcErrorBody :=
  let reason := s!"Provided gas price exceeds threshold ({g} > {d})"
  { reason := reason, code := -32099, message := reason }

/-- The `-32099` body thrown when backend gas estimation fails. -/
def unpredictableGasLimitError (ex : String) : RpcErrorBody :=
  let reason := s!"Unpredictable gas limit: {ex}"
  { reason := reason, code := -32099, message := reason }

/-- The `-32099` body thrown when an estimated gas limit exceeds the
threshold. -/
def estimatedGasLimitError (g d : Nat) : RpcErrorBody :=
  let reason := s!"Estimated gas limit exceeds threshold ({g} > {d})"
  { reason := reason, code := -32099, message := reason }

/-- The `-32099` body thrown when a supplied gas limit exceeds the
threshold. -/
def providedGasLimitError (g d : Nat) : RpcErrorBody :=
  let reason := s!"Provided gas limit exceeds threshold ({g} > {d})"
  { reason := reason, code := -32099, message := reason }

/-- The backend gas-price estimate multiplied by `Math.ceil(factor * 100)`
and divided by 100 (`BigNumber` division truncates). -/
def factoredGasPrice (cfg : EthersConfig) (pgp : Nat) : Nat :=
  pgp * ceil100 cfg.gasPriceFactor / 100

/-- The backend gas-limit estimate multiplied by `Math.ceil(factor * 100)`
and divided by 100. -/
def factoredGasLimit (cfg : EthersConfig) (pgl : Nat) : Nat :=
  pgl * ceil100 cfg.gasLimitFactor / 100

/-- `WalletWrapper.getGasPrice`: when `estimateGasPrice`, ask the backend
(an oracle argument; `.error` is a backend failure), multiply by the ceiled
factor, divide by 100 (`BigNumber` division truncates), and reject above the
threshold; otherwise return the default.  Thrown bodies carry code `-32099`. -/
def getGasPrice (cfg : EthersConfig) (providerGasPrice : Except String Nat) :
    Except RpcErrorBody Nat :=
  if cfg.estimateGasPrice then
    match providerGasPrice with
    | .error ex => .error (unpredictableGasPriceError ex)
    | .ok pgp =>
        if factoredGasPrice cfg pgp > cfg.defaultGasPrice then
          .error (estimatedGasPriceError (factoredGasPrice cfg pgp) cfg.defaultGasPrice)
        else .ok (factoredGasPrice cfg pgp)
  else .ok cfg.defaultGasPrice

/-- `WalletWrapper.getGasLimit`: mirror of `getGasPrice` for the gas limit,
the backend estimation `provider.estimateGas(tx)` being the oracle. -/
def getGasLimit (cfg : EthersConfig) (providerEstimateGas : Except String Nat) :
    Except RpcErrorBody Nat :=
  if cfg.estimateGasLimit then
    match providerEstimateGas with
    | .error ex => .error (unpredictableGasLimitError ex)
    | .ok pgl =>
        if factoredGasLimit cfg pgl > cfg.defaultGasLimit then
          .error (estimatedGasLimitError (factoredGasLimit cfg pgl) cfg.defaultGasLimit)
        else .ok (factoredGasLimit cfg pgl)
  else .ok cfg.defaultGasLimit

/-- The gas-price section of `composeTransaction`:
`if (params.from && !params.gasPrice) … else if (params.gasPrice) …`. -/
def gasPriceStage (cfg : EthersConfig) (providerGasPrice : Except String Nat)
    (params : TransactionParams) (tx : TransactionRequest) :
    Except RpcErrorBody TransactionRequest :=
  if optStrTruthy params.fromAddr && params.gasPrice.isNone then
    match getGasPrice cfg providerGasPrice with
    | .error e => .error e
    | .ok gp => .ok { tx with gasPrice := some gp }
  else
    match params.gasPrice with
    | some g =>
        if g > cfg.defaultGasPrice then
          .error (providedGasPriceError g cfg.defaultGasPrice)
        else .ok { tx with gasPrice := some g }
    | none => .ok tx

/-- The gas-limit section of `composeTransaction`:
`if (params.from && !params.gas) … else if (params.gas) …`. -/
def gasLimitStage (cfg : EthersConfig) (providerEstimateGas : Except String Nat)
    (params : TransactionParams) (tx : TransactionRequest) :
    Except RpcErrorBody TransactionRequest :=
  if optStrTruthy params.fromAddr && params.gas.isNone then
    match getGasLimit cfg providerEstimateGas with
    | .error e => .error e
    | .ok gl => .ok { tx with gasLimit := some gl }
  else
    match params.gas with
    | some g =>
        if g > cfg.defaultGasLimit then
          .error (providedGasLimitError g cfg.defaultGasLimit)
        else .ok { tx with gasLimit := some g }
    | none => .ok tx

/-- The EIP-1559 fee sections of `composeTransaction`: a supplied cap wins,
otherwise under `forceType2Txs` both caps are copied from the gas price. -/
def feeCapStage (cfg : EthersConfig) (params : TransactionParams)
    (tx : TransactionRequest) : TransactionRequest :=
  let tx :=
    match params.maxFeePerGas with
    | some m => { tx with maxFeePerGas := some m }
    | none =>
        if cfg.forceType2Txs then { tx with maxFeePerGas := tx.gasPrice } else tx
  match params.maxPriorityFeePerGas with
  | some m => { tx with maxPriorityFeePerGas := some m }
  | none =>
      if cfg.forceType2Txs then { tx with maxPriorityFeePerGas := tx.gasPrice } else tx

/-- `WalletWrapper.composeTransaction` of `src/lib/ethers/wrapper.ts`:
builds the base transaction (`from`, `to`, `value`, `data`, `nonce` taken
verbatim from the params), adds `chainId` under `forceEIP155` and `type = 2`
under `forceType2Txs`, then resolves gas price, gas limit and the EIP-1559
fee caps.  The two backend oracles answer `provider.getGasPrice()` and
`provider.estimateGas(tx)`; no nonce oracle exists in this function.
`baseTx` is its base transaction object (`from`, `to`, `value`, `data`,
`nonce` verbatim from the params; `chainId` under `forceEIP155`; `type = 2`
under `forceType2Txs`). -/
def baseTx (cfg : EthersConfig) (params : TransactionParams) : TransactionRequest :=
  { fromAddr := params.fromAddr, toAddr := params.toAddr, value := params.value,
    data := params.data, nonce := params.nonce,
    chainId := if cfg.forceEIP155 then some cfg.chainId else none,
    type := if cfg.forceType2Txs then some 2 else none,
    gasPrice := none, gasLimit := none,
    maxFeePerGas := none, maxPriorityFeePerGas := none }

/-- `WalletWrapper.composeTransaction` of `src/lib/ethers/wrapper.ts`:
builds the base transaction, then resolves gas price, gas limit and the
EIP-1559 fee caps. -/
def composeTransaction (cfg : EthersConfig)
    (providerGasPrice providerEstimateGas : Except String Nat)
    (params : TransactionParams) : Except RpcErrorBody TransactionRequest :=
  match gasPriceStage cfg providerGasPrice params (baseTx cfg params) with
  | .error e => .error e
  | .ok tx =>
      match gasLimitStage cfg providerEstimateGas params tx with
      | .error e => .error e
      | .ok tx => .ok (feeCapStage cfg params tx)

/-! ## Rollback detection -/

/-- Trace levels of the winston logger. -/
inductive LogLevel where
  | error
  | warn
  | info
  | http
  | verbose
  | debug
deriving Repr, DecidableEq

/-- One emitted trace. -/
structure LogEvent where
  level : LogLevel
  message : String
deriving Repr, DecidableEq

/-- Result of a rollback check: the trace it emitted (if any), the new value
stored into the last-known field, and the returned head. -/
structure RollbackCheck where
  log : Option LogEvent
  newLastKnown : Int
  returned : Int
deriving Repr, DecidableEq

/-- `WalletWrapper.checkRollbacks` of `src/lib/ethers/wrapper.ts`:
`observedBlock` is the backend's `provider.getBlockNumber()` answer.  On a
strict decrease it traces — at level `warn` in both branches — and in every
case it stores the observed head into `lastKnownBlock` and returns it. -/
def ethersCheckRollbacks (lastKnownBlock interleaveBlocks observedBlock : Int) :
    RollbackCheck :=
  { log :=
      if observedBlock < lastKnownBlock then
        if observedBlock ≤ lastKnownBlock - interleaveBlocks then
          some { level := .warn,
                 message := s!"Threatening rollback: from epoch {lastKnownBlock} down to {observedBlock}" }
        else
          some { level := .warn,
                 message := s!"Harmelss rollback: from epoch {lastKnownBlock} down to {observedBlock}" }
      else none,
    newLastKnown := observedBlock,
    returned := observedBlock }

/-- `WalletWrapper.checkRollbacks` of the Conflux wrapper:
`observedEpoch` answers `conflux.getEpochNumber(epochLabel)`.  A compromising
rollback (gap reaching `confirmationEpochs`) traces at level `error`, a
filtered one at level `warn`; the observed epoch is always stored. -/
def confluxCheckRollbacks (lastKnownEpochNumber confirmationEpochs observedEpoch : Int) :
    RollbackCheck :=
  { log :=
      if observedEpoch < lastKnownEpochNumber then
        if observedEpoch ≤ lastKnownEpochNumber - confirmationEpochs then
          some { level := .error,
                 message := s!"Detected compromising rollback: from epoch {lastKnownEpochNumber} down to {observedEpoch}" }
        else
          some { level := .warn,
                 message := s!"Filtered possible rollback: from epoch {lastKnownEpochNumber} down to {observedEpoch}" }
      else none,
    newLastKnown := observedEpoch,
    returned := observedEpoch }

/-- What `processEthCall` hands to `provider.call`: the composed transaction,
the optional block tag, whether `checkRollbacks` ran, and the resulting
`lastKnownBlock`. -/
structure EthCallExec where
  tx : TransactionRequest
  blockTag : Option Int
  checkedRollbacks : Bool
  newLastKnownBlock : Int

/-- `WalletWrapper.processEthCall`: compose the transaction (no nonce oracle
is consulted), then — only when `interleaveBlocks > 0` — run `checkRollbacks`
and bind the call to `observed − interleaveBlocks`; otherwise forward the
call with no block tag and untouched rollback state. -/
def processEthCall (cfg : EthersConfig) (lastKnownBlock : Int)
    (providerGasPrice providerEstimateGas : Except String Nat)
    (observedBlock : Int) (params : TransactionParams) :
    Except RpcErrorBody EthCallExec :=
  match composeTransaction cfg providerGasPrice providerEstimateGas params with
  | .error e => .error e
  | .ok tx =>
      if cfg.interleaveBlocks > 0 then
        let rc := ethersCheckRollbacks lastKnownBlock cfg.interleaveBlocks observedBlock
        .ok { tx := tx, blockTag := some (rc.returned - cfg.interleaveBlocks),
              checkedRollbacks := true, newLastKnownBlock := rc.newLastKnown }
      else
        .ok { tx := tx, blockTag := none,
              checkedRollbacks := false, newLastKnownBlock := lastKnownBlock }

/-! ## Wallet set and signing handlers -/

/-- A managed signing identity: the checksummed address, the external signer
capability, and the backend's answer to `wallet.getTransactionCount()`. -/
structure Wallet where
  address : String
  signMessage : String → String
  transactionCount : Nat

/-- `WalletWrapper.getAccounts`: addresses of all managed wallets, in order. -/
def getAccounts (wallets : List Wallet) : List String :=
  wallets.map (·.address)

/-- `WalletWrapper.getWalletByAddress`: first wallet whose address matches
case-insensitively, if any. -/
def getWalletByAddress (wallets : List Wallet) (address : String) : Option Wallet :=
  wallets.find? (fun w => jsToLower w.address == jsToLower address)

/-- The `UnknownSigner` body thrown when no managed wallet matches. -/
def unknownSignerError (address : String) : RpcErrorBody :=
  let reason := s!"No private key available as to sign messages from '{address}'"
  { reason := reason, code := -32000, message := reason }

/-- `WalletWrapper.processEthSignMessage`: resolve the wallet by address
(case-insensitively); absent → throw the `UnknownSigner` body (code −32000),
else return the wallet's signature of the message. -/
def processEthSignMessage (wallets : List Wallet) (address message : String) :
    Except RpcErrorBody String :=
  match getWalletByAddress wallets address with
  | none => .error (unknownSignerError address)
  | some w => .ok (w.signMessage message)

/-- Outcome of `processTransaction` just before signing: the final
transaction, the resolved signer, and whether the nonce was fetched from the
wallet. -/
structure SentTx where
  tx : TransactionRequest
  signer : String
  nonceFetched : Bool

/-- The signing address `processTransaction` resolves:
`tx.from || (await this.getAccounts())[0]`. -/
def resolveSender (wallets : List Wallet) (tx : TransactionRequest) : String :=
  if optStrTruthy tx.fromAddr then tx.fromAddr.getD ""
  else (getAccounts wallets).headD ""

/-- `WalletWrapper.processTransaction`: fires `checkRollbacks` (un-awaited,
trace-only), composes the transaction, resolves the signing wallet from
`tx.from` (default: first account), throws `UnknownSigner` when unknown, and
only then — when `!tx.nonce` — fetches the nonce from the resolved wallet.
Signing and submission are external; the embedding stops at the signed
payload. -/
def processTransaction (cfg : EthersConfig)
    (wallets : List Wallet)
    (providerGasPrice providerEstimateGas : Except String Nat)
    (params : TransactionParams) : Except RpcErrorBody SentTx :=
  match composeTransaction cfg providerGasPrice providerEstimateGas params with
  | .error e => .error e
  | .ok tx =>
      match getWalletByAddress wallets (resolveSender wallets tx) with
      | none => .error (unknownSignerError (resolveSender wallets tx))
      | some w =>
          if jsOptTruthy tx.nonce then
            .ok { tx := tx, signer := w.address, nonceFetched := false }
          else
            .ok { tx := { tx with nonce := some (.num w.transactionCount) },
                  signer := w.address, nonceFetched := true }

/-- `0x`-prefixed lowercase hex rendering of a natural number
(`BigNumber.toHexString` / `toString(16)` on non-negative values). -/
def natToHex (n : Nat) : String :=
  "0x" ++ (Nat.toDigits 16 n).asString

/-- `WalletWrapper.getBlockByNumber`: forwards `provider.getBlock` (oracle
argument; `.error` is a thrown backend exception) and hex-normalises
`baseFeePerGas`, `_difficulty`, `gasLimit` and `gasUsed` on a truthy result.
A backend exception is bypassed with a warning, leaving the handler result
`undefined`. -/
def getBlockByNumber (estimateGasLimit : Bool) (defaultGasLimit : Nat)
    (providerBlock : Except JVal JVal) : JVal :=
  match providerBlock with
  | .error _ => .undefined
  | .ok res =>
      if !jsTruthy res then res
      else
        let hexed := fun (v : JVal) =>
          match v with
          | .num n => JVal.str (natToHex n.toNat)
          | w => w
        let res :=
          if jsTruthy (getField res "baseFeePerGas") then
            setField res "baseFeePerGas" (hexed (getField res "baseFeePerGas"))
          else res
        let res :=
          if jsTruthy (getField res "_difficulty") then
            setField res "_difficulty" (hexed (getField res "_difficulty"))
          else res
        let res :=
          if estimateGasLimit then
            setField res "gasLimit" (.num defaultGasLimit)
          else if jsTruthy (getField res "gasLimit") then
            setField res "gasLimit" (hexed (getField res "gasLimit"))
          else res
        let res :=
          if jsTruthy (getField res "gasUsed") then
            setField res "gasUsed" (hexed (getField res "gasUsed"))
          else res
        res

/-! ## Router envelope and error normalisation (src/ethers/server.ts) -/

/-- JavaScript `a || b`. -/
def jsSelect (a b : JVal) : JVal :=
  if jsTruthy a then a else b

/-- JavaScript `a && b`. -/
def jsAnd (a b : JVal) : JVal :=
  if jsTruthy a then b else a

/-- The literal string the router answers with when the normalised error body
cannot be parsed as JSON. -/
def invalidJsonErrorString : String :=
  "\x7b \"code\": -32700, \"message\": \"Invalid JSON response\" \x7d"

/-- The `if (!exception.code)` re-wrap at the top of the router's `catch`:
an exception without a truthy top-level `code` is assumed to be a provider
execution error and replaced wholesale by a `-32015` body quoting the
stringified original exception. -/
def rewrapNoCode (e : JVal) : JVal :=
  if jsTruthy (getField e "code") then e
  else
    .obj [("reason", .str (jsToString e)),
          ("body", .obj [("error", .obj
            [("code", .num (-32015)),
             ("message",
               if jsTruthy (getField e "data") then .str "Execution error"
               else .str (jsonStringifyD e)),
             ("data", getField e "data")])])]

/-- The `message` fallback chain of the `catch` block:
`exception.reason || (exception.error && exception.error.reason) || exception
|| 'null exception'`. -/
def catchMessage (e : JVal) : JVal :=
  jsSelect (getField e "reason")
    (jsSelect (jsAnd (getField e "error") (getField (getField e "error") "reason"))
      (jsSelect e (.str "null exception")))

/-- The `body` selection of the `catch` block: `exception.body`, else
`exception.error.body` when present, else a synthesised
`{ error: { code: exception.code || -32099, message: "…", data } }`. -/
def catchBody (e : JVal) : JVal :=
  jsSelect (getField e "body")
    (if jsTruthy (jsAnd (getField e "error") (getField (getField e "error") "body"))
      then getField (getField e "error") "body"
      else
        .obj [("error", .obj
          [("code", jsSelect (getField e "code") (.num (-32099))),
           ("message", .str ("\"" ++ jsToString (catchMessage e) ++ "\"")),
           ("data", getField e "data")])])

/-- `body = typeof body !== 'string' ? JSON.stringify(body) : body`
applied after `rewrapNoCode` and `catchBody`. -/
def catchBodyString (e : JVal) : String :=
  let e' := rewrapNoCode e
  match catchBody e' with
  | .str s => s
  | b => jsonStringifyD b

/-- The error member of the response envelope built by the `catch` block:
`JSON.parse(body).error` when that evaluates without throwing (`none` when the
parsed value carries no `error` member, which `res.json` then drops), and the
literal `invalidJsonErrorString` when `JSON.parse` throws — or when the parsed
value is `null`, whose property read throws inside the same `try`. -/
def routerCatchError (e : JVal) : Option JVal :=
  match jsonParse (catchBodyString e) with
  | some .null => some (.str invalidJsonErrorString)
  | some j =>
      match getField j "error" with
      | .undefined => none
      | v => some v
  | none => some (.str invalidJsonErrorString)

/-- The response envelope as serialised by `res.status(200).json(response)`:
`result`/`error` members equal to `none` are absent on the wire (the
serializer drops members whose value is `undefined`). -/
structure Envelope where
  jsonrpc : JVal
  id : JVal
  httpStatus : Nat
  result : Option JVal
  error : Option JVal

/-- The POST handler of `WalletMiddlewareServer.initialize`
(src/ethers/server.ts) after dispatch: `outcome` is the settled handler or
raw-forward promise — `.ok` its resolution value, `.error` the exception
value.  The envelope always echoes `request.jsonrpc`/`request.id` and is sent
with HTTP status 200. -/
def routerRespond (reqJsonrpc reqId : JVal) (outcome : Except JVal JVal) :
    Envelope :=
  match outcome with
  | .ok r =>
      { jsonrpc := reqJsonrpc, id := reqId, httpStatus := 200,
        result := match r with | .undefined => none | _ => some r,
        error := none }
  | .error e =>
      { jsonrpc := reqJsonrpc, id := reqId, httpStatus := 200,
        result := none,
        error := routerCatchError e }

/-! ## Conflux translators (Conflux WalletMiddlewareServer) -/

/-- `dictionaryEthCfx`: the Eth → Cfx method-alias table. -/
def dictionaryEthCfx (m : String) : Option String :=
  match m with
  | "eth_blockNumber" => some "cfx_epochNumber"
  | "eth_call" => some "cfx_call"
  | "eth_gasPrice" => some "cfx_gasPrice"
  | "eth_getBalance" => some "cfx_getBalance"
  | "eth_getBlockByHash" => some "cfx_getBlockByHash"
  | "eth_getBlockByNumber" => some "cfx_getBlockByEpochNumber"
  | "eth_getCode" => some "cfx_getCode"
  | "eth_getLogs" => some "cfx_getLogs"
  | "eth_getStorageAt" => some "cfx_getStorageAt"
  | "eth_getTransactionByHash" => some "cfx_getTransactionByHash"
  | "eth_getTransactionCount" => some "cfx_getNextNonce"
  | "eth_getTransactionReceipt" => some "cfx_getTransactionReceipt"
  | _ => none

/-- The method rewrite at the top of the Conflux POST handler:
`if (method in dictionaryEthCfx) request.method = dictionaryEthCfx[method]`. -/
def cfxRewriteMethod (m : String) : String :=
  match dictionaryEthCfx m with
  | some m' => m'
  | none => m

/-- `WalletMiddlewareServer.translateTag`: `latest` becomes the configured
epoch label, `pending` becomes `latest_checkpoint`, everything else passes
through unchanged. -/
def translateTag (epochLabel : String) (tag : String) : String :=
  match tag with
  | "latest" => epochLabel
  | "pending" => "latest_checkpoint"
  | _ => tag

/-- `{...log, logIndex, transactionIndex, transactionHash, blockNumber,
blockHash}`: the per-log enrichment inside the `logs` switch case.  A spread
of a non-object contributes no members. -/
def mergeLogEntry (lg : JVal) (index : Nat)
    (txIndex txHash epochNumber blockHash : JVal) : JVal :=
  let base := match lg with | .obj fs => fs | _ => []
  .obj (setKey (setKey (setKey (setKey (setKey base
    "logIndex" (.str (natToHex index)))
    "transactionIndex" txIndex)
    "transactionHash" txHash)
    "blockNumber" epochNumber)
    "blockHash" blockHash)

mutual

/-- Fuelled rendering of `WalletMiddlewareServer.translateCfxResponseObject`.
The JavaScript original mutates the object in place while iterating the
`Object.keys` snapshot; here the field list is threaded through `cfxStep`
in the same order.  Each recursive descent consumes one unit of fuel; with
exhausted fuel the value is returned unchanged (the public wrapper below
supplies fuel far exceeding the nesting of any JSON-RPC response, and every
universal theorem about the translator is proved for all fuels). -/
def translateCfxFuel (hexAddress : String → String) : Nat → JVal → JVal
  | 0, v => v
  | fuel + 1, .obj fields =>
      .obj (cfxFold hexAddress fuel fields (fields.map Prod.fst))
  | fuel + 1, .arr es => .arr (cfxElems hexAddress fuel es)
  | _ + 1, v => v

/-- `keys.forEach(key => …)` over the snapshot of keys. -/
def cfxFold (hexAddress : String → String) :
    Nat → List (String × JVal) → List String → List (String × JVal)
  | 0, fs, _ => fs
  | _ + 1, fs, [] => fs
  | fuel + 1, fs, k :: ks => cfxFold hexAddress fuel (cfxStep hexAddress fuel fs k) ks

/-- The body of the `forEach` callback for one snapshot key: recursive
descent into object/array values, CIP-37 → hex rewriting of `cfx…` strings,
then the key switch (field renames/duplications, log enrichment, and the
`status`/`outcomeStatus` inversion guarded by `if (obj[key])`). -/
def cfxStep (hexAddress : String → String) :
    Nat → List (String × JVal) → String → List (String × JVal)
  | 0, fs, _ => fs
  | fuel + 1, fs, key =>
      let value := lookupField fs key
      let fs :=
        match value with
        | .obj _ => setKey fs key (translateCfxFuel hexAddress fuel value)
        | .arr _ => setKey fs key (translateCfxFuel hexAddress fuel value)
        | .str s =>
            if jsStartsWith (jsToLower s) "cfx" then setKey fs key (.str (hexAddress s))
            else fs
        | _ => fs
      if key == "epochNumber" then
        let v := lookupField fs key
        setKey (setKey fs "number" v) "blockNumber" v
      else if key == "index" then
        setKey fs "transactionIndex" (lookupField fs key)
      else if key == "gasUsed" then
        setKey fs "cumulativeGasUsed" (lookupField fs key)
      else if key == "contractCreated" then
        setKey fs "contractAddress" (lookupField fs key)
      else if key == "stateRoot" then
        setKey fs "root" (lookupField fs key)
      else if key == "logs" then
        match lookupField fs "logs" with
        | .arr ls =>
            setKey fs "logs" (.arr (List.map
              (fun p => mergeLogEntry p.2 p.1
                (lookupField fs "transactionIndex")
                (lookupField fs "transactionHash")
                (lookupField fs "epochNumber")
                (lookupField fs "blockHash"))
              ls.enum))
        | _ => fs
      else if key == "status" || key == "outcomeStatus" then
        let v := lookupField fs key
        if jsTruthy v then
          match v with
          | .num n => setKey fs "status" (.num (if n == 0 then 1 else 0))
          | .str s =>
              setKey fs "status" (.str (if s == "0" || s == "0x0" then "0x1" else "0x0"))
          | _ => setKey fs "status" v
        else fs
      else fs

/-- Array values enter the same recursion (`typeof value === 'object'` holds
for arrays, and `Object.keys` of an array enumerates its indices, none of
which matches a switch case). -/
def cfxElems (hexAddress : String → String) : Nat → List JVal → List JVal
  | 0, es => es
  | _ + 1, [] => []
  | fuel + 1, v :: rest =>
      (match v with
        | .obj _ => translateCfxFuel hexAddress fuel v
        | .arr _ => translateCfxFuel hexAddress fuel v
        | .str s =>
            if jsStartsWith (jsToLower s) "cfx" then JVal.str (hexAddress s) else v
        | _ => v) :: cfxElems hexAddress fuel rest

end

/-- `WalletMiddlewareServer.translateCfxResponseObject`, with ample fuel.
`hexAddress` stands for the external `confluxFormat.hexAddress` codec. -/
def translateCfxResponseObject (hexAddress : String → String) (v : JVal) : JVal :=
  translateCfxFuel hexAddress 1000000 v

/-- The keys the Conflux response translator renames, duplicates or rewrites. -/
def isCfxSpecialKey (k : String) : Bool :=
  k == "epochNumber" || k == "index" || k == "gasUsed" || k == "contractCreated"
    || k == "stateRoot" || k == "logs" || k == "status" || k == "outcomeStatus"

mutual

/-- A value is Ethereum-native for the Conflux response translator when,
recursively, no object key is one the translator touches and no string value
starts with `cfx` (case-insensitively). -/
def ethNative : JVal → Bool
  | .obj fields => ethNativeFields fields
  | .arr es => ethNativeElems es
  | .str s => !(jsStartsWith (jsToLower s) "cfx")
  | _ => true

/-- Field lists of Ethereum-native objects. -/
def ethNativeFields : List (String × JVal) → Bool
  | [] => true
  | (k, v) :: rest => !(isCfxSpecialKey k) && ethNative v && ethNativeFields rest

/-- Element lists of Ethereum-native arrays. -/
def ethNativeElems : List JVal → Bool
  | [] => true
  | v :: rest => ethNative v && ethNativeElems rest

end

/-! ## Concrete fixtures used by witnesses and counterexamples -/

/-- A wallet set with a single managed wallet (mixed-case address). -/
def oneWallet : List Wallet :=
  [{ address := "0xAbCd", signMessage := fun m => "sig:" ++ m, transactionCount := 9 }]

/-- A plain gateway configuration: defaults only, no estimation, no EIP
forcing, zero interleave. -/
def simpleCfg : EthersConfig :=
  { defaultGasPrice := 100, defaultGasLimit := 200,
    estimateGasLimit := false, estimateGasPrice := false,
    ethGasPriceFactor := false, forceEIP155 := false, forceType2Txs := false,
    gasPriceFactor := 1, gasLimitFactor := 1, interleaveBlocks := 0, chainId := 1 }

/-- `simpleCfg` with three interleave blocks. -/
def interleaveCfg : EthersConfig :=
  { simpleCfg with interleaveBlocks := 3 }

/-- Transaction params with every field absent. -/
def emptyParams : TransactionParams :=
  { fromAddr := none, toAddr := none, gas := none, gasPrice := none,
    value := none, data := none, nonce := none,
    maxFeePerGas := none, maxPriorityFeePerGas := none }

/-- Params carrying nonce `0` (a JSON number) from a managed sender. -/
def nonceZeroParams : TransactionParams :=
  { emptyParams with fromAddr := some "0xABCD", nonce := some (.num 0) }

/-- Params carrying nonce `5` and no sender. -/
def nonceFiveParams : TransactionParams :=
  { emptyParams with nonce := some (.num 5) }

/-- Params supplying a gas price above `simpleCfg`'s threshold. -/
def priceyParams : TransactionParams :=
  { emptyParams with gasPrice := some 125 }

/-- The transaction composed from `emptyParams` under `simpleCfg`. -/
def emptyTx : TransactionRequest :=
  { fromAddr := none, toAddr := none, value := none, data := none,
    nonce := none, chainId := none, type := none, gasPrice := none,
    gasLimit := none, maxFeePerGas := none, maxPriorityFeePerGas := none }

/-- The signing outcome for `nonceFiveParams` against `oneWallet`. -/
def sentNonceFive : SentTx :=
  { tx := { emptyTx with nonce := some (.num 5) }, signer := "0xAbCd",
    nonceFetched := false }

/-- The call record for `emptyParams` at interleave 3, head 50. -/
def c6CallRecord : EthCallExec :=
  { tx := emptyTx, blockTag := some 47, checkedRollbacks := true,
    newLastKnownBlock := 50 }

/-- An Ethereum-native receipt fragment: a successful status. -/
def ethReceiptFragment : JVal :=
  .obj [("status", .str "0x1")]

/-- An exception with a truthy code and an unparseable string body. -/
def badJsonException : JVal :=
  .obj [("code", .num 404), ("body", .str "Bad Gateway")]

/-- An Ethereum-native response object (no translated keys, no cfx strings). -/
def ethNativeSample : JVal :=
  .obj [("number", .str "0x2a"), ("transactions", .arr [.str "0xdead"])]

/-! ## Helper lemmas -/

mutual

/-- `jvalBEq` is reflexive. -/
theorem jvalBEq_refl : (v : JVal) → jvalBEq v v = true
  | .null => rfl
  | .undefined => rfl
  | .bool b => by simp [jvalBEq]
  | .num n => by simp [jvalBEq]
  | .str s => by simp [jvalBEq]
  | .arr es => jlistBEq_refl es
  | .obj fs => jfieldsBEq_refl fs

/-- `jlistBEq` is reflexive. -/
theorem jlistBEq_refl : (es : List JVal) → jlistBEq es es = true
  | [] => rfl
  | v :: rest => by
      have h1 := jvalBEq_refl v
      have h2 := jlistBEq_refl rest
      simp [jlistBEq, h1, h2]

/-- `jfieldsBEq` is reflexive. -/
theorem jfieldsBEq_refl : (fs : List (String × JVal)) → jfieldsBEq fs fs = true
  | [] => rfl
  | (_, v) :: rest => by
      have h1 := jvalBEq_refl v
      have h2 := jfieldsBEq_refl rest
      simp [jfieldsBEq, h1, h2]

end

/-- Values with distinct boolean equality are distinct. -/
theorem jval_ne_of_beq_false {a b : JVal} (h : jvalBEq a b = false) : a ≠ b := by
  intro he
  rw [he, jvalBEq_refl] at h
  exact Bool.noConfusion h

/-- A key appearing among an object's keys pairs with its looked-up value. -/
theorem lookup_mem_of_mem_keys :
    ∀ (fs : List (String × JVal)) (k : String),
      k ∈ fs.map Prod.fst → (k, lookupField fs k) ∈ fs := by
  intro fs
  induction fs with
  | nil => intro k h; simp at h
  | cons p rest ih =>
      intro k h
      obtain ⟨k', v'⟩ := p
      by_cases hk : k' = k
      · subst hk
        simp [lookupField]
      · have hmem : k ∈ rest.map Prod.fst := by
          simp only [List.map_cons, List.mem_cons] at h
          exact h.resolve_left (by simpa using Ne.symm hk)
        have := ih k hmem
        simp only [lookupField, beq_iff_eq, if_neg hk]
        exact List.mem_cons_of_mem _ this

/-- Writing back the looked-up value of a present key leaves the object
unchanged. -/
theorem setKey_lookup_self :
    ∀ (fs : List (String × JVal)) (k : String),
      k ∈ fs.map Prod.fst → setKey fs k (lookupField fs k) = fs := by
  intro fs
  induction fs with
  | nil => intro k h; simp at h
  | cons p rest ih =>
      intro k h
      obtain ⟨k', v'⟩ := p
      by_cases hk : k' = k
      · subst hk
        simp [setKey, lookupField]
      · have hmem : k ∈ rest.map Prod.fst := by
          simp only [List.map_cons, List.mem_cons] at h
          exact h.resolve_left (by simpa using Ne.symm hk)
        simp only [setKey, lookupField, beq_iff_eq, if_neg hk]
        rw [ih k hmem]

/-- Every member of an Ethereum-native field list has a non-special key and
an Ethereum-native value. -/
theorem ethNativeFields_mem :
    ∀ (fs : List (String × JVal)), ethNativeFields fs = true →
      ∀ k v, (k, v) ∈ fs → isCfxSpecialKey k = false ∧ ethNative v = true := by
  intro fs
  induction fs with
  | nil => intro _ k v h; simp at h
  | cons p rest ih =>
      intro hfs k v h
      obtain ⟨k', v'⟩ := p
      rw [ethNativeFields] at hfs
      simp only [Bool.and_eq_true, Bool.not_eq_true'] at hfs
      obtain ⟨⟨hk', hv'⟩, hrest⟩ := hfs
      rcases List.mem_cons.mp h with hhd | htl
      · obtain ⟨h1, h2⟩ := Prod.mk.injEq .. ▸ hhd
        exact ⟨h1 ▸ hk', h2 ▸ hv'⟩
      · exact ih hrest k v htl

/-- A non-special key fails every comparison of the translator's switch. -/
theorem not_special_key_cases {k : String} (h : isCfxSpecialKey k = false) :
    (k == "epochNumber") = false ∧ (k == "index") = false
  ∧ (k == "gasUsed") = false ∧ (k == "contractCreated") = false
  ∧ (k == "stateRoot") = false ∧ (k == "logs") = false
  ∧ (k == "status") = false ∧ (k == "outcomeStatus") = false := by
  rw [isCfxSpecialKey] at h
  simp only [Bool.or_eq_false_iff] at h
  exact ⟨h.1.1.1.1.1.1.1, h.1.1.1.1.1.1.2, h.1.1.1.1.1.2, h.1.1.1.1.2,
    h.1.1.1.2, h.1.1.2, h.1.2, h.2⟩

/-- The translator, at every fuel, is the identity on Ethereum-native values:
no key of such an object is in the switch, no string value starts with `cfx`,
and the recursive descent preserves the property. -/
theorem translate_ethNative_all (hexAddress : String → String) :
    ∀ fuel : Nat,
      (∀ v, ethNative v = true → translateCfxFuel hexAddress fuel v = v)
    ∧ (∀ fs ks, ethNativeFields fs = true → (∀ k ∈ ks, k ∈ fs.map Prod.fst) →
        cfxFold hexAddress fuel fs ks = fs)
    ∧ (∀ fs k, ethNativeFields fs = true → k ∈ fs.map Prod.fst →
        cfxStep hexAddress fuel fs k = fs)
    ∧ (∀ es, ethNativeElems es = true → cfxElems hexAddress fuel es = es) := by
  intro fuel
  induction fuel with
  | zero =>
      exact ⟨fun v _ => rfl, fun fs ks _ _ => rfl, fun fs k _ _ => rfl, fun es _ => rfl⟩
  | succ fuel ih =>
      obtain ⟨ihT, ihF, ihS, ihE⟩ := ih
      have hstep : ∀ fs k, ethNativeFields fs = true → k ∈ fs.map Prod.fst →
          cfxStep hexAddress (fuel + 1) fs k = fs := by
        intro fs k hfs hk
        have hmem := lookup_mem_of_mem_keys fs k hk
        obtain ⟨hspec, hnat⟩ := ethNativeFields_mem fs hfs k (lookupField fs k) hmem
        obtain ⟨c1, c2, c3, c4, c5, c6, c7, c8⟩ := not_special_key_cases hspec
        have hinner :
            (match lookupField fs k with
              | JVal.obj _ => setKey fs k (translateCfxFuel hexAddress fuel (lookupField fs k))
              | JVal.arr _ => setKey fs k (translateCfxFuel hexAddress fuel (lookupField fs k))
              | JVal.str s =>
                  if jsStartsWith (jsToLower s) "cfx" then setKey fs k (.str (hexAddress s))
                  else fs
              | _ => fs) = fs := by
          split
          case h_1 fields heq =>
            rw [heq, ihT _ (heq ▸ hnat), ← heq]
            exact setKey_lookup_self fs k hk
          case h_2 elems heq =>
            rw [heq, ihT _ (heq ▸ hnat), ← heq]
            exact setKey_lookup_self fs k hk
          case h_3 s heq =>
            have : jsStartsWith (jsToLower s) "cfx" = false := by
              have := heq ▸ hnat
              rw [ethNative] at this
              simpa using this
            simp [this]
          case h_4 => rfl
        show cfxStep hexAddress (fuel + 1) fs k = fs
        rw [cfxStep]
        simp only [hinner, c1, c2, c3, c4, c5, c6, c7, c8]
        simp
      refine ⟨?_, ?_, hstep, ?_⟩
      · intro v hv
        cases v with
        | null => rfl
        | undefined => rfl
        | bool b => rfl
        | num n => rfl
        | str s => rfl
        | obj fields =>
            rw [ethNative] at hv
            rw [translateCfxFuel]
            rw [ihF fields (fields.map Prod.fst) hv (fun k hk => hk)]
        | arr es =>
            rw [ethNative] at hv
            rw [translateCfxFuel]
            rw [ihE es hv]
      · intro fs ks hfs hks
        cases ks with
        | nil => rfl
        | cons k ks =>
            rw [cfxFold]
            rw [ihS fs k hfs (hks k (List.mem_cons_self k ks))]
            exact ihF fs ks hfs (fun k' hk' => hks k' (List.mem_cons_of_mem _ hk'))
      · intro es he
        cases es with
        | nil => rfl
        | cons v rest =>
            rw [ethNativeElems] at he
            simp only [Bool.and_eq_true] at he
            obtain ⟨hv, hrest⟩ := he
            cases v with
            | null =>
                show JVal.null :: cfxElems hexAddress fuel rest = JVal.null :: rest
                rw [ihE rest hrest]
            | undefined =>
                show JVal.undefined :: cfxElems hexAddress fuel rest = JVal.undefined :: rest
                rw [ihE rest hrest]
            | bool b =>
                show JVal.bool b :: cfxElems hexAddress fuel rest = JVal.bool b :: rest
                rw [ihE rest hrest]
            | num n =>
                show JVal.num n :: cfxElems hexAddress fuel rest = JVal.num n :: rest
                rw [ihE rest hrest]
            | str s =>
                have hcond : jsStartsWith (jsToLower s) "cfx" = false := by
                  rw [ethNative] at hv
                  simpa using hv
                show (if jsStartsWith (jsToLower s) "cfx" then JVal.str (hexAddress s)
                      else JVal.str s) :: cfxElems hexAddress fuel rest
                  = JVal.str s :: rest
                rw [ihE rest hrest]
                simp [hcond]
            | obj fields =>
                show translateCfxFuel hexAddress fuel (JVal.obj fields)
                      :: cfxElems hexAddress fuel rest
                  = JVal.obj fields :: rest
                rw [ihT _ hv, ihE rest hrest]
            | arr es' =>
                show translateCfxFuel hexAddress fuel (JVal.arr es')
                      :: cfxElems hexAddress fuel rest
                  = JVal.arr es' :: rest
                rw [ihT _ hv, ihE rest hrest]

/-- A successful `getGasPrice` never exceeds the threshold. -/
theorem getGasPrice_ok_le {cfg : EthersConfig} {p : Except String Nat} {g : Nat}
    (h : getGasPrice cfg p = .ok g) : g ≤ cfg.defaultGasPrice := by
  unfold getGasPrice at h
  split at h
  · split at h
    · exact absurd h (by simp)
    · split at h
      · exact absurd h (by simp)
      · simp only [Except.ok.injEq] at h
        omega
  · simp only [Except.ok.injEq] at h
    omega

/-- A failing `getGasPrice` carries code `-32099`. -/
theorem getGasPrice_error_code {cfg : EthersConfig} {p : Except String Nat}
    {e : RpcErrorBody} (h : getGasPrice cfg p = .error e) : e.code = -32099 := by
  unfold getGasPrice at h
  split at h
  · split at h
    · simp only [Except.error.injEq] at h
      rw [← h]
      rfl
    · split at h
      · simp only [Except.error.injEq] at h
        rw [← h]
        rfl
      · exact absurd h (by simp)
  · exact absurd h (by simp)

/-- A successful `getGasLimit` never exceeds the threshold. -/
theorem getGasLimit_ok_le {cfg : EthersConfig} {p : Except String Nat} {g : Nat}
    (h : getGasLimit cfg p = .ok g) : g ≤ cfg.defaultGasLimit := by
  unfold getGasLimit at h
  split at h
  · split at h
    · exact absurd h (by simp)
    · split at h
      · exact absurd h (by simp)
      · simp only [Except.ok.injEq] at h
        omega
  · simp only [Except.ok.injEq] at h
    omega

/-- A failing `getGasLimit` carries code `-32099`. -/
theorem getGasLimit_error_code {cfg : EthersConfig} {p : Except String Nat}
    {e : RpcErrorBody} (h : getGasLimit cfg p = .error e) : e.code = -32099 := by
  unfold getGasLimit at h
  split at h
  · split at h
    · simp only [Except.error.injEq] at h
      rw [← h]
      rfl
    · split at h
      · simp only [Except.error.injEq] at h
        rw [← h]
        rfl
      · exact absurd h (by simp)
  · exact absurd h (by simp)

/-- A successful gas-price stage leaves the transaction unchanged or sets a
gas price within the threshold. -/
theorem gasPriceStage_ok {cfg : EthersConfig} {p : Except String Nat}
    {params : TransactionParams} {tx tx' : TransactionRequest}
    (h : gasPriceStage cfg p params tx = .ok tx') :
    tx' = tx ∨ ∃ g, tx' = { tx with gasPrice := some g } ∧ g ≤ cfg.defaultGasPrice := by
  rw [gasPriceStage] at h
  split at h
  · split at h
    case h_1 e heq => exact absurd h (by simp)
    case h_2 gp heq =>
      simp only [Except.ok.injEq] at h
      exact Or.inr ⟨gp, h.symm, getGasPrice_ok_le heq⟩
  · split at h
    case h_1 _ g hg =>
      split at h
      · exact absurd h (by simp)
      · simp only [Except.ok.injEq] at h
        rename_i hgt
        exact Or.inr ⟨g, h.symm, by omega⟩
    case h_2 =>
      simp only [Except.ok.injEq] at h
      exact Or.inl h.symm

/-- A failing gas-price stage carries code `-32099`. -/
theorem gasPriceStage_error_code {cfg : EthersConfig} {p : Except String Nat}
    {params : TransactionParams} {tx : TransactionRequest} {e : RpcErrorBody}
    (h : gasPriceStage cfg p params tx = .error e) : e.code = -32099 := by
  rw [gasPriceStage] at h
  split at h
  · split at h
    case h_1 e' heq =>
      simp only [Except.error.injEq] at h
      exact h ▸ getGasPrice_error_code heq
    case h_2 => exact absurd h (by simp)
  · split at h
    case h_1 _ g hg =>
      split at h
      · simp only [Except.error.injEq] at h
        rw [← h]
        rfl
      · exact absurd h (by simp)
    case h_2 => exact absurd h (by simp)

/-- A supplied gas price strictly above the threshold makes the gas-price
stage throw. -/
theorem gasPriceStage_threshold {cfg : EthersConfig} {p : Except String Nat}
    {params : TransactionParams} {tx : TransactionRequest} {g : Nat}
    (hg : params.gasPrice = some g) (hgt : cfg.defaultGasPrice < g) :
    ∃ e, gasPriceStage cfg p params tx = .error e ∧ e.code = -32099 := by
  rw [gasPriceStage]
  have hnone : params.gasPrice.isNone = false := by rw [hg]; rfl
  rw [hnone]
  simp only [Bool.and_false, Bool.false_eq_true, if_false, hg]
  rw [if_pos hgt]
  exact ⟨_, rfl, rfl⟩

/-- A successful gas-limit stage leaves the transaction unchanged or sets a
gas limit within the threshold. -/
theorem gasLimitStage_ok {cfg : EthersConfig} {p : Except String Nat}
    {params : TransactionParams} {tx tx' : TransactionRequest}
    (h : gasLimitStage cfg p params tx = .ok tx') :
    tx' = tx ∨ ∃ g, tx' = { tx with gasLimit := some g } ∧ g ≤ cfg.defaultGasLimit := by
  rw [gasLimitStage] at h
  split at h
  · split at h
    case h_1 e heq => exact absurd h (by simp)
    case h_2 gl heq =>
      simp only [Except.ok.injEq] at h
      exact Or.inr ⟨gl, h.symm, getGasLimit_ok_le heq⟩
  · split at h
    case h_1 _ g hg =>
      split at h
      · exact absurd h (by simp)
      · simp only [Except.ok.injEq] at h
        rename_i hgt
        exact Or.inr ⟨g, h.symm, by omega⟩
    case h_2 =>
      simp only [Except.ok.injEq] at h
      exact Or.inl h.symm

/-- A failing gas-limit stage carries code `-32099`. -/
theorem gasLimitStage_error_code {cfg : EthersConfig} {p : Except String Nat}
    {params : TransactionParams} {tx : TransactionRequest} {e : RpcErrorBody}
    (h : gasLimitStage cfg p params tx = .error e) : e.code = -32099 := by
  rw [gasLimitStage] at h
  split at h
  · split at h
    case h_1 e' heq =>
      simp only [Except.error.injEq] at h
      exact h ▸ getGasLimit_error_code heq
    case h_2 => exact absurd h (by simp)
  · split at h
    case h_1 _ g hg =>
      split at h
      · simp only [Except.error.injEq] at h
        rw [← h]
        rfl
      · exact absurd h (by simp)
    case h_2 => exact absurd h (by simp)

/-- A supplied gas limit strictly above the threshold makes the gas-limit
stage throw. -/
theorem gasLimitStage_threshold {cfg : EthersConfig} {p : Except String Nat}
    {params : TransactionParams} {tx : TransactionRequest} {g : Nat}
    (hg : params.gas = some g) (hgt : cfg.defaultGasLimit < g) :
    ∃ e, gasLimitStage cfg p params tx = .error e ∧ e.code = -32099 := by
  rw [gasLimitStage]
  have hnone : params.gas.isNone = false := by rw [hg]; rfl
  rw [hnone]
  simp only [Bool.and_false, Bool.false_eq_true, if_false, hg]
  rw [if_pos hgt]
  exact ⟨_, rfl, rfl⟩

/-- The fee-cap stage touches only the two EIP-1559 fields. -/
theorem feeCapStage_frame (cfg : EthersConfig) (params : TransactionParams)
    (tx : TransactionRequest) :
    (feeCapStage cfg params tx).gasPrice = tx.gasPrice
  ∧ (feeCapStage cfg params tx).gasLimit = tx.gasLimit
  ∧ (feeCapStage cfg params tx).nonce = tx.nonce := by
  rw [feeCapStage]
  rcases params.maxFeePerGas with _ | m <;> rcases params.maxPriorityFeePerGas with _ | m'
    <;> rcases h2 : cfg.forceType2Txs <;> simp

/-- A successfully composed transaction keeps the params' nonce verbatim and
carries gas values only within the configured thresholds. -/
theorem composeTransaction_ok_cases {cfg : EthersConfig}
    {pgp pgl : Except String Nat} {params : TransactionParams}
    {tx : TransactionRequest}
    (h : composeTransaction cfg pgp pgl params = .ok tx) :
    tx.nonce = params.nonce
  ∧ (tx.gasPrice = none ∨ ∃ g, tx.gasPrice = some g ∧ g ≤ cfg.defaultGasPrice)
  ∧ (tx.gasLimit = none ∨ ∃ g, tx.gasLimit = some g ∧ g ≤ cfg.defaultGasLimit) := by
  unfold composeTransaction at h
  split at h
  case h_1 => exact absurd h (by simp)
  case h_2 tx1 heq1 =>
    split at h
    case h_1 => exact absurd h (by simp)
    case h_2 tx2 heq2 =>
      simp only [Except.ok.injEq] at h
      obtain ⟨hfp, hfl, hfn⟩ := feeCapStage_frame cfg params tx2
      rw [← h] at *
      rcases gasPriceStage_ok heq1 with h1 | ⟨g1, h1, hg1⟩ <;>
        rcases gasLimitStage_ok heq2 with h2 | ⟨g2, h2, hg2⟩ <;>
          subst h1 <;> subst h2 <;>
            refine ⟨?_, ?_, ?_⟩ <;> simp_all [baseTx]

/-! ## Claim theorems -/

/-- Claim C1 (as amended): the router produces exactly one envelope per
settled dispatch (`routerRespond` is a total function); the envelope echoes
the request's `id` and `jsonrpc`, is sent with HTTP status 200, and never
carries both `result` and `error`; every exception is answered through the
error path with no `result` member; a successful dispatch carries no `error`
member and, whenever its value is not `undefined`, carries it as `result`.
(The original claim's "exactly one of result/error" fails: see the
counterexample, where a handler resolves with `undefined`.) -/
theorem router_envelope_shape (reqJsonrpc reqId : JVal) (outcome : Except JVal JVal) :
    (routerRespond reqJsonrpc reqId outcome).id = reqId
  ∧ (routerRespond reqJsonrpc reqId outcome).jsonrpc = reqJsonrpc
  ∧ (routerRespond reqJsonrpc reqId outcome).httpStatus = 200
  ∧ ((routerRespond reqJsonrpc reqId outcome).result.isSome = false
      ∨ (routerRespond reqJsonrpc reqId outcome).error.isSome = false)
  ∧ (∀ e, outcome = .error e → (routerRespond reqJsonrpc reqId outcome).result = none)
  ∧ (∀ r, outcome = .ok r → (routerRespond reqJsonrpc reqId outcome).error = none
      ∧ (r ≠ .undefined → (routerRespond reqJsonrpc reqId outcome).result = some r)) := by
  cases outcome with
  | ok r =>
      refine ⟨rfl, rfl, rfl, Or.inr rfl, ?_, ?_⟩
      · intro e he
        exact absurd he (by simp)
      · intro r' hr
        injection hr with hr
        subst hr
        refine ⟨rfl, ?_⟩
        intro hne
        cases r with
        | undefined => exact absurd rfl hne
        | null => rfl
        | bool b => rfl
        | num n => rfl
        | str s => rfl
        | arr es => rfl
        | obj fs => rfl
  | error e =>
      refine ⟨rfl, rfl, rfl, Or.inl rfl, ?_, ?_⟩
      · intro e' _
        rfl
      · intro r hr
        exact absurd hr (by simp)

/-- Witness for C1: a concrete successful dispatch, with the implications of
`router_envelope_shape` discharged at it. -/
theorem router_envelope_shape_witness :
    (routerRespond (.str "2.0") (.num 3) (.ok (.str "0x1"))).id = .num 3
  ∧ (routerRespond (.str "2.0") (.num 3) (.ok (.str "0x1"))).result = some (.str "0x1") :=
  ⟨(router_envelope_shape (.str "2.0") (.num 3) (.ok (.str "0x1"))).1,
   ((router_envelope_shape (.str "2.0") (.num 3) (.ok (.str "0x1"))).2.2.2.2.2
      (.str "0x1") rfl).2 (by simp)⟩

/-- Counterexample for C1 as frozen: when the backend's `getBlock` throws,
`getBlockByNumber`'s exception bypass resolves with `undefined`, and the
serialized success envelope carries neither `result` nor `error`. -/
theorem router_envelope_two_member_counterexample :
    getBlockByNumber false 100 (.error (.str "provider down")) = .undefined
  ∧ (routerRespond (.str "2.0") (.num 7)
      (.ok (getBlockByNumber false 100 (.error (.str "provider down"))))).result = none
  ∧ (routerRespond (.str "2.0") (.num 7)
      (.ok (getBlockByNumber false 100 (.error (.str "provider down"))))).error = none :=
  ⟨rfl, rfl, rfl⟩

/-- Claim C2: every transaction returned by `composeTransaction` carries
`gasPrice ≤ defaultGasPrice` and `gasLimit ≤ defaultGasLimit` (whenever those
fields are set at all — a read-only call with no `from` and no supplied gas
leaves them unset), or else `composeTransaction` throws a body with code
`-32099`; in particular a supplied `params.gasPrice`/`params.gas` strictly
above its threshold is rejected, and every rejection (threshold or
estimation failure) carries code `-32099`. -/
theorem composeTransaction_gas_thresholds (cfg : EthersConfig)
    (pgp pgl : Except String Nat) (params : TransactionParams) :
    (∀ tx, composeTransaction cfg pgp pgl params = .ok tx →
        (∀ g, tx.gasPrice = some g → g ≤ cfg.defaultGasPrice)
      ∧ (∀ g, tx.gasLimit = some g → g ≤ cfg.defaultGasLimit))
  ∧ (∀ e, composeTransaction cfg pgp pgl params = .error e → e.code = -32099)
  ∧ (∀ g, params.gasPrice = some g → cfg.defaultGasPrice < g →
      ∃ e, composeTransaction cfg pgp pgl params = .error e ∧ e.code = -32099)
  ∧ (∀ g, params.gas = some g → cfg.defaultGasLimit < g →
      ∃ e, composeTransaction cfg pgp pgl params = .error e ∧ e.code = -32099) := by
  refine ⟨?_, ?_, ?_, ?_⟩
  · intro tx h
    obtain ⟨_, hp, hl⟩ := composeTransaction_ok_cases h
    constructor
    · intro g hg
      rcases hp with hp | ⟨g', hp, hg'⟩
      · rw [hp] at hg; exact absurd hg (by simp)
      · rw [hp] at hg; injection hg with hg; omega
    · intro g hg
      rcases hl with hl | ⟨g', hl, hg'⟩
      · rw [hl] at hg; exact absurd hg (by simp)
      · rw [hl] at hg; injection hg with hg; omega
  · intro e h
    unfold composeTransaction at h
    split at h
    case h_1 e' heq =>
      injection h with h
      exact h ▸ gasPriceStage_error_code heq
    case h_2 tx1 heq1 =>
      split at h
      case h_1 e' heq =>
        injection h with h
        exact h ▸ gasLimitStage_error_code heq
      case h_2 => exact absurd h (by simp)
  · intro g hg hgt
    obtain ⟨e, he, hc⟩ :=
      @gasPriceStage_threshold cfg pgp params (baseTx cfg params) g hg hgt
    refine ⟨e, ?_, hc⟩
    unfold composeTransaction
    rw [he]
  · intro g hg hgt
    cases h1 : gasPriceStage cfg pgp params (baseTx cfg params) with
    | error e =>
        refine ⟨e, ?_, gasPriceStage_error_code h1⟩
        unfold composeTransaction
        rw [h1]
    | ok tx1 =>
        obtain ⟨e, he, hc⟩ :=
          @gasLimitStage_threshold cfg pgl params tx1 g hg hgt
        refine ⟨e, ?_, hc⟩
        unfold composeTransaction
        rw [h1]
        show (match gasLimitStage cfg pgl params tx1 with
              | .error e => (Except.error e : Except RpcErrorBody TransactionRequest)
              | .ok tx => .ok (feeCapStage cfg params tx)) = .error e
        rw [he]

/-- Witness for C2: a supplied gas price of 125 against a threshold of 100 is
rejected with code `-32099`. -/
theorem composeTransaction_gas_thresholds_witness :
    ∃ e, composeTransaction simpleCfg (.ok 1) (.ok 1) priceyParams = .error e
      ∧ e.code = -32099 :=
  (composeTransaction_gas_thresholds simpleCfg (.ok 1) (.ok 1) priceyParams).2.2.1
    125 rfl (by norm_num [simpleCfg])

/-- Claim C3 (code bug): the Conflux status translator is guarded by
`if (obj[key])`, so a numeric `outcomeStatus: 0` — falsy — is skipped
entirely: no `status` member is produced, where the claim (and the spec's
scenario 5) promises `status = "0x1"`.  String zeros are translated as
claimed, and a non-zero number yields the number `0`, not the string
`"0x0"`. -/
theorem cfx_status_numeric_zero_bug :
    translateCfxResponseObject (fun s => s) (.obj [("outcomeStatus", .num 0)])
      = .obj [("outcomeStatus", .num 0)]
  ∧ getField (translateCfxResponseObject (fun s => s) (.obj [("outcomeStatus", .num 0)]))
      "status" = .undefined
  ∧ translateCfxResponseObject (fun s => s) (.obj [("outcomeStatus", .str "0x0")])
      = .obj [("outcomeStatus", .str "0x0"), ("status", .str "0x1")]
  ∧ translateCfxResponseObject (fun s => s) (.obj [("status", .num 3)])
      = .obj [("status", .num 0)] :=
  ⟨rfl, rfl, rfl, rfl⟩

/-- Claim C4 (code bug): `processEthSignMessage` resolves wallets
case-insensitively and throws the `UnknownSigner` body with code `-32000`
for an unmanaged address — but the router's catch block sees no *top-level*
`exception.code` on that thrown object and re-wraps it as a `-32015`
execution error, so the response envelope never carries `-32000`. -/
theorem eth_sign_unknown_signer_code_bug :
    processEthSignMessage oneWallet "0xABCD" "0xbeef" = .ok "sig:0xbeef"
  ∧ processEthSignMessage oneWallet "0xdead" "0xbeef"
      = .error (unknownSignerError "0xdead")
  ∧ (unknownSignerError "0xdead").code = -32000
  ∧ (routerRespond (.str "2.0") (.num 1)
        (.error (thrownToJVal (unknownSignerError "0xdead")))).error
      = some (.obj [("code", .num (-32015)),
                    ("message",
                      .str (jsonStringifyD (thrownToJVal (unknownSignerError "0xdead"))))])
  ∧ (-32015 : Int) ≠ -32000 :=
  ⟨rfl, rfl, rfl, by rfl, by norm_num⟩

/-- Claim C5 (as amended): both `checkRollbacks` variants always store the
observed head into the last-known field and return it (they never throw);
on a strict decrease the Conflux wrapper traces at level `error` when the
gap reaches `confirmationEpochs` and at `warn` otherwise, while the generic
ethers wrapper traces at level `warn` in both branches (distinguished only
by the message, `Threatening` vs `Harmelss` rollback). -/
theorem checkRollbacks_behavior (last interleave observed : Int) :
    (ethersCheckRollbacks last interleave observed).newLastKnown = observed
  ∧ (ethersCheckRollbacks last interleave observed).returned = observed
  ∧ (ethersCheckRollbacks last interleave observed).log
      = (if observed < last then
          (if observed ≤ last - interleave then
            some { level := LogLevel.warn,
                   message := s!"Threatening rollback: from epoch {last} down to {observed}" }
          else
            some { level := LogLevel.warn,
                   message := s!"Harmelss rollback: from epoch {last} down to {observed}" })
        else none)
  ∧ (confluxCheckRollbacks last interleave observed).newLastKnown = observed
  ∧ (confluxCheckRollbacks last interleave observed).returned = observed
  ∧ (confluxCheckRollbacks last interleave observed).log
      = (if observed < last then
          (if observed ≤ last - interleave then
            some { level := LogLevel.error,
                   message := s!"Detected compromising rollback: from epoch {last} down to {observed}" }
          else
            some { level := LogLevel.warn,
                   message := s!"Filtered possible rollback: from epoch {last} down to {observed}" })
        else none) :=
  ⟨rfl, rfl, rfl, rfl, rfl, rfl⟩

/-- Counterexample for C5 as frozen: the ethers wrapper observes a head 20
blocks below the stored value with a window of 10 — the claim demands an
error-level trace, the code emits `warn`. -/
theorem ethers_rollback_warn_counterexample :
    (ethersCheckRollbacks 100 10 80).log
      = some { level := LogLevel.warn,
               message := "Threatening rollback: from epoch 100 down to 80" }
  ∧ (100 : Int) - 80 ≥ 10
  ∧ LogLevel.warn ≠ LogLevel.error :=
  ⟨rfl, by norm_num, by decide⟩

/-- Claim C6: `processEthCall` composes the transaction without any nonce
oracle (the composed nonce is the params' nonce verbatim); when
`interleaveBlocks > 0` it runs `checkRollbacks` first and binds the backend
call to `observed − interleaveBlocks`, storing the observed head; when
`interleaveBlocks = 0` it skips `checkRollbacks` entirely and forwards the
call with no block tag and untouched state. -/
theorem processEthCall_interleave (cfg : EthersConfig) (last : Int)
    (pgp pgl : Except String Nat) (observed : Int) (params : TransactionParams)
    (r : EthCallExec)
    (h : processEthCall cfg last pgp pgl observed params = .ok r) :
    r.tx.nonce = params.nonce
  ∧ (0 < cfg.interleaveBlocks →
      r.checkedRollbacks = true
    ∧ r.blockTag = some (observed - cfg.interleaveBlocks)
    ∧ r.newLastKnownBlock = observed)
  ∧ (cfg.interleaveBlocks = 0 →
      r.checkedRollbacks = false ∧ r.blockTag = none ∧ r.newLastKnownBlock = last) := by
  unfold processEthCall at h
  split at h
  case h_1 => exact absurd h (by simp)
  case h_2 tx heq =>
    have hn := (composeTransaction_ok_cases heq).1
    split at h
    · injection h with h
      subst h
      refine ⟨hn, fun _ => ⟨rfl, rfl, rfl⟩, ?_⟩
      intro h0
      rename_i hpos
      rw [h0] at hpos
      exact absurd hpos (by norm_num)
    · injection h with h
      subst h
      refine ⟨hn, ?_, fun _ => ⟨rfl, rfl, rfl⟩⟩
      intro hpos
      rename_i hneg
      exact absurd hpos hneg

/-- Witness for C6: interleave 3, stored head 100, observed head 50. -/
theorem processEthCall_interleave_witness :
    processEthCall interleaveCfg 100 (.ok 1) (.ok 1) 50 emptyParams = .ok c6CallRecord
  ∧ c6CallRecord.blockTag = some (50 - 3)
  ∧ c6CallRecord.checkedRollbacks = true
  ∧ c6CallRecord.newLastKnownBlock = 50 :=
  ⟨rfl,
   (((processEthCall_interleave interleaveCfg 100 (.ok 1) (.ok 1) 50 emptyParams
        c6CallRecord rfl).2.1 (by norm_num [interleaveCfg, simpleCfg])).2.1),
   (((processEthCall_interleave interleaveCfg 100 (.ok 1) (.ok 1) 50 emptyParams
        c6CallRecord rfl).2.1 (by norm_num [interleaveCfg, simpleCfg])).1),
   (((processEthCall_interleave interleaveCfg 100 (.ok 1) (.ok 1) 50 emptyParams
        c6CallRecord rfl).2.1 (by norm_num [interleaveCfg, simpleCfg])).2.2)⟩

/-- Claim C7 (as amended): the Conflux response translator is a fixed point
on every value that is Ethereum-native in the strict sense — recursively
containing none of the keys the translator renames, duplicates or rewrites
(`epochNumber`, `index`, `gasUsed`, `contractCreated`, `stateRoot`, `logs`,
`status`, `outcomeStatus`) and no string value starting with `cfx`.  On
Ethereum receipts carrying a `status` field the translator is not even
idempotent: see the counterexample. -/
theorem translateCfx_fixed_point_ethNative (hexAddress : String → String)
    (v : JVal) (h : ethNative v = true) :
    translateCfxResponseObject hexAddress v = v :=
  (translate_ethNative_all hexAddress 1000000).1 v h

/-- Witness for C7: a concrete Ethereum-native block fragment is untouched. -/
theorem translateCfx_fixed_point_ethNative_witness :
    ethNative ethNativeSample = true
  ∧ translateCfxResponseObject (fun s => s) ethNativeSample = ethNativeSample :=
  ⟨rfl, translateCfx_fixed_point_ethNative (fun s => s) ethNativeSample rfl⟩

/-- Counterexample for C7 as frozen: an Ethereum-native receipt fragment
with `status: "0x1"` is rewritten to `status: "0x0"`, so the translator is
neither a fixed point on Ethereum-shaped responses nor idempotent. -/
theorem translateCfx_status_counterexample :
    translateCfxResponseObject (fun s => s) ethReceiptFragment
      = .obj [("status", .str "0x0")]
  ∧ translateCfxResponseObject (fun s => s) ethReceiptFragment ≠ ethReceiptFragment
  ∧ translateCfxResponseObject (fun s => s)
      (translateCfxResponseObject (fun s => s) ethReceiptFragment)
      ≠ translateCfxResponseObject (fun s => s) ethReceiptFragment :=
  ⟨rfl, jval_ne_of_beq_false (by rfl), jval_ne_of_beq_false (by rfl)⟩

/-- Claim C8 (as amended): `composeTransaction` never fetches a nonce — the
composed nonce is `params.nonce` verbatim; `processTransaction` fetches the
nonce from the resolved wallet only after wallet resolution succeeds (an
unknown signer aborts with the `-32000` body before any fetch), and it
fetches exactly when `tx.nonce` is JavaScript-falsy — i.e. when
`params.nonce` is absent *or* falsy (empty string, numeric `0`), not only
when absent as the frozen claim states. -/
theorem processTransaction_nonce_policy (cfg : EthersConfig)
    (wallets : List Wallet) (pgp pgl : Except String Nat)
    (params : TransactionParams) :
    (∀ tx, composeTransaction cfg pgp pgl params = .ok tx → tx.nonce = params.nonce)
  ∧ (∀ r, processTransaction cfg wallets pgp pgl params = .ok r →
        r.nonceFetched = !(jsOptTruthy params.nonce)
      ∧ (jsOptTruthy params.nonce = true → r.tx.nonce = params.nonce)
      ∧ (jsOptTruthy params.nonce = false →
          ∃ w, w ∈ wallets ∧ r.signer = w.address
            ∧ r.tx.nonce = some (.num w.transactionCount)))
  ∧ (∀ tx, composeTransaction cfg pgp pgl params = .ok tx →
      getWalletByAddress wallets (resolveSender wallets tx) = none →
      processTransaction cfg wallets pgp pgl params
        = .error (unknownSignerError (resolveSender wallets tx))) := by
  refine ⟨fun tx h => (composeTransaction_ok_cases h).1, ?_, ?_⟩
  · intro r h
    unfold processTransaction at h
    split at h
    case h_1 => exact absurd h (by simp)
    case h_2 tx heq =>
      have hn := (composeTransaction_ok_cases heq).1
      split at h
      case h_1 => exact absurd h (by simp)
      case h_2 w hw =>
        split at h
        · injection h with h
          subst h
          rename_i htr
          rw [hn] at htr
          refine ⟨by simp [htr], fun _ => hn, fun hf => ?_⟩
          rw [htr] at hf
          exact absurd hf (by simp)
        · injection h with h
          subst h
          rename_i htr
          rw [hn] at htr
          simp only [Bool.not_eq_true] at htr
          refine ⟨by simp [htr], fun ht => absurd ht (by simp [htr]), fun _ => ?_⟩
          exact ⟨w, List.mem_of_find?_eq_some hw, rfl, rfl⟩
  · intro tx heq hw
    simp only [processTransaction, heq, hw]

/-- Witness for C8: a truthy nonce (`5`) is passed through unfetched. -/
theorem processTransaction_nonce_policy_witness :
    processTransaction simpleCfg oneWallet (.ok 1) (.ok 1) nonceFiveParams
      = .ok sentNonceFive
  ∧ sentNonceFive.nonceFetched = !(jsOptTruthy nonceFiveParams.nonce) :=
  ⟨rfl,
   ((processTransaction_nonce_policy simpleCfg oneWallet (.ok 1) (.ok 1)
        nonceFiveParams).2.1 sentNonceFive rfl).1⟩

/-- Counterexample for C8 as frozen: a *present* nonce of numeric `0` is
falsy, so `processTransaction` refetches it from the wallet (here: 9),
although the claim says the nonce is fetched only when `params.nonce` is
absent. -/
theorem nonce_zero_refetched_counterexample :
    nonceZeroParams.nonce = some (.num 0)
  ∧ nonceZeroParams.nonce ≠ none
  ∧ (processTransaction simpleCfg oneWallet (.ok 1) (.ok 1) nonceZeroParams).toOption.map
      SentTx.nonceFetched = some true
  ∧ (processTransaction simpleCfg oneWallet (.ok 1) (.ok 1) nonceZeroParams).toOption.map
      (fun r => r.tx.nonce) = some (some (.num 9)) :=
  ⟨rfl, by simp [nonceZeroParams, emptyParams], rfl, rfl⟩

/-- Claim C9: the Conflux parameter translator maps `latest` to the
configured epoch label and `pending` to `latest_checkpoint`, passes every
other tag through unchanged, and the router rewrites
`eth_getBlockByNumber` to `cfx_getBlockByEpochNumber` before dispatch. -/
theorem conflux_tag_and_method_rewrite (epochLabel tag : String) :
    translateTag epochLabel "latest" = epochLabel
  ∧ translateTag epochLabel "pending" = "latest_checkpoint"
  ∧ (tag ≠ "latest" → tag ≠ "pending" → translateTag epochLabel tag = tag)
  ∧ cfxRewriteMethod "eth_getBlockByNumber" = "cfx_getBlockByEpochNumber" := by
  refine ⟨rfl, rfl, ?_, rfl⟩
  intro h1 h2
  rw [translateTag.eq_def]
  split
  · exact absurd rfl h1
  · exact absurd rfl h2
  · rfl

/-- Witness for C9: the pass-through case at the tag `earliest` under the
label `latest_finalized`. -/
theorem conflux_tag_and_method_rewrite_witness :
    translateTag "latest_finalized" "earliest" = "earliest" :=
  (conflux_tag_and_method_rewrite "latest_finalized" "earliest").2.2.1
    (by decide) (by decide)

/-- Claim C10: when the normalised error body of the router's catch path is
not parseable as JSON, the envelope still echoes the request id, goes out
with HTTP status 200 and no `result`, and its `error` member is the literal
string `{ "code": -32700, "message": "Invalid JSON response" }` — a JSON
string, not a structured `{code, message}` object. -/
theorem invalid_json_error_envelope (reqJsonrpc reqId : JVal) (e : JVal)
    (h : jsonParse (catchBodyString e) = none) :
    routerRespond reqJsonrpc reqId (.error e)
      = { jsonrpc := reqJsonrpc, id := reqId, httpStatus := 200,
          result := none, error := some (.str invalidJsonErrorString) } := by
  show Envelope.mk reqJsonrpc reqId 200 none (routerCatchError e) = _
  rw [routerCatchError.eq_def, h]

/-- Witness for C10: a backend error with a truthy `code` and the
unparseable body `Bad Gateway`. -/
theorem invalid_json_error_envelope_witness :
    jsonParse (catchBodyString badJsonException) = none
  ∧ routerRespond (.str "2.0") (.num 5) (.error badJsonException)
      = { jsonrpc := .str "2.0", id := .num 5, httpStatus := 200,
          result := none, error := some (.str invalidJsonErrorString) } :=
  ⟨rfl, invalid_json_error_envelope (.str "2.0") (.num 5) badJsonException rfl⟩

end W3GW
